import Mathlib

/-!
Verification of the translation-bot request-dispatch core.

This file gives a shallow embedding of the bot's dispatch engine
(`Translate` in `translate.go` together with the package-level constants of
the main file): the direction-token scan (`langDirect` regexp), intent
classification, the language catalogs with their once-guarded population
(`initLanguages`, `isDirection`, `getLangs`), the upstream request layer
(modelled as an oracle from URL and form parameters to a decoded-JSON
result, with every issued call recorded in a trace), Go `encoding/json`
field decoding for the response shapes, and the two response renderers
(`JSONTrResp.String`, `JSONTrDict.String`).

Strings are modelled as Lean strings; Go compares and sorts strings
bytewise, which on valid UTF-8 agrees with code-point order, so string
comparison is modelled character-wise on `String.data`.
-/

namespace TranslationBot

/-! ## Go string primitives -/

/-- Bytewise (here: code-point-wise) lexicographic string comparison,
modelling Go's built-in `<=` on strings used by `sort.Strings` and
`sort.SearchStrings`. -/
def goLeChars : List Char → List Char → Bool
  | [], _ => true
  | _ :: _, [] => false
  | a :: as, b :: bs =>
    if a.toNat < b.toNat then true
    else if b.toNat < a.toNat then false
    else goLeChars as bs

/-- Go string comparison `a <= b`. -/
def goStrLe (a b : String) : Bool :=
  goLeChars a.data b.data

/-- Model of Go `strings.Trim(s, " ")`: remove all leading and all trailing
space characters. -/
def goTrim (s : String) : String :=
  String.mk (((s.data.dropWhile (fun c => c == ' ')).reverse.dropWhile
    (fun c => c == ' ')).reverse)

/-- Model of Go `strings.SplitN(s, " ", 2)`: split at the first space only;
a string without a space (including the empty string) stays one element. -/
def goSplitN2 (s : String) : List String :=
  match s.data.findIdx? (fun c => c == ' ') with
  | none => [s]
  | some i => [String.mk (s.data.take i), String.mk (s.data.drop (i + 1))]

/-- Insertion step for `sortStrings`. -/
def insertStr (x : String) : List String → List String
  | [] => [x]
  | y :: ys => if goStrLe x y then x :: y :: ys else y :: insertStr x ys

/-- Model of Go `sort.Strings`: produce the ascending-sorted rearrangement
of the list under bytewise string comparison. -/
def sortStrings : List String → List String
  | [] => []
  | x :: xs => insertStr x (sortStrings xs)

/-! ## Go `sort.Search` / `sort.SearchStrings`

Go's `sort.Search(n, f)` runs a binary-search loop on `[i, j) = [0, n)`
picking `h = (i+j)/2` and narrowing to `[i, h)` when `f h` holds and to
`[h+1, j)` otherwise.  The loop always terminates within `n` iterations,
so it is embedded with a fuel argument instantiated with `n`. -/

/-- Binary-search loop of Go's `sort.Search`. -/
def searchLoop (f : Nat → Bool) : Nat → Nat → Nat → Nat
  | 0, i, _ => i
  | fuel + 1, i, j =>
    if i < j then
      let m := (i + j) / 2
      if f m then searchLoop f fuel i m else searchLoop f fuel (m + 1) j
    else i

/-- Model of Go `sort.SearchStrings(a, x)`:
`sort.Search(len(a), func(i) bool { return a[i] >= x })`. -/
def sortSearchStrings (a : List String) (x : String) : Nat :=
  searchLoop (fun i => goStrLe x (a.getD i "")) a.length 0 a.length

/-- Membership test of `isDirection` (translate.go:287-290): binary search
followed by the exact-match check
`i < len(languages) && languages[i] == direction`. -/
def isKnown (languages : List String) (direction : String) : Bool :=
  let i := sortSearchStrings languages direction
  decide (i < languages.length) && (languages.getD i "" == direction)

/-! ## The direction-token scan

`langDirect = regexp.MustCompile("[a-z]{2,3}-[a-z]{2,3}")` and
`langDirect.FindAllStringIndex(text, 1)`: the leftmost match of the
pattern, with Go's leftmost-first (Perl-style) preference, where the
greedy `{2,3}` repetitions prefer length 3 over length 2. -/

/-- ASCII lower-case letter, the character class `[a-z]`. -/
def isLowerAZ (c : Char) : Bool :=
  decide ('a' ≤ c) && decide (c ≤ 'z')

/-- Attempt to match `[a-z]{a}-[a-z]{b}` at the start of `cs` for fixed
repetition counts `a` and `b`. -/
def matchSegAt (cs : List Char) (a b : Nat) : Bool :=
  (cs.take a).all isLowerAZ && (cs.getD a ' ' == '-')
    && decide (b ≤ (cs.drop (a + 1)).length)
    && ((cs.drop (a + 1)).take b).all isLowerAZ

/-- Attempt to match the direction pattern at the start of `cs`, returning
the match length.  Backtracking preference of the greedy `{2,3}`
repetitions: first component 3 then 2, and within each, second component 3
then 2. -/
def matchAt (cs : List Char) : Option Nat :=
  if matchSegAt cs 3 3 then some 7
  else if matchSegAt cs 3 2 then some 6
  else if matchSegAt cs 2 3 then some 6
  else if matchSegAt cs 2 2 then some 5
  else none

/-- Leftmost match of the direction pattern: the first start position (with
its match length) at which `matchAt` succeeds. -/
def findMatch : List Char → Option (Nat × Nat)
  | [] => none
  | c :: rest =>
    match matchAt (c :: rest) with
    | some l => some (0, l)
    | none => (findMatch rest).map (fun p => (p.1 + 1, p.2))

/-- Direction-token scan of `Translate` (translate.go:338-343): the first
`langDirect` match together with the text following it.  `none` models
`len(found) == 0`. -/
def findDirection (s : String) : Option (String × String) :=
  (findMatch s.data).map (fun p =>
    (String.mk ((s.data.drop p.1).take p.2), String.mk (s.data.drop (p.1 + p.2))))

/-! ## JSON values and Go `encoding/json` field decoding -/

/-- Decoded JSON document, the shape `json.Unmarshal` consumes. -/
inductive JSON where
  | null
  | str (s : String)
  | num (n : Int)
  | arr (elems : List JSON)
  | obj (fields : List (String × JSON))

/-- Lower-cased string, for case-insensitive field matching. -/
def goToLower (s : String) : String :=
  String.mk (s.data.map Char.toLower)

/-- Go struct-field key matching: an exact match of the effective key (the
struct tag) is preferred, otherwise a case-insensitive match is accepted. -/
def lookupKey (fs : List (String × JSON)) (key : String) : Option JSON :=
  match fs.find? (fun p => p.1 == key) with
  | some p => some p.2
  | none => (fs.find? (fun p => goToLower p.1 == goToLower key)).map (fun p => p.2)

/-- Decode a JSON value expected to be a string. -/
def asString : JSON → Except String String
  | .str s => .ok s
  | _ => .error "json: cannot unmarshal value into field of type string"

/-- Decode a JSON value expected to be an array of strings. -/
def asStringArr : JSON → Except String (List String)
  | .arr es => es.mapM asString
  | _ => .error "json: cannot unmarshal value into field of type []string"

/-- Decode a JSON value expected to be an object with string values,
modelling Go's `map[string]string`. -/
def asStrMap : JSON → Except String (List (String × String))
  | .obj fs => fs.mapM (fun p => (asString p.2).map (fun v => (p.1, v)))
  | _ => .error "json: cannot unmarshal value into field of type map[string]string"

/-- Struct field with effective key `key` of type `string`: a missing or
null field keeps the zero value `""`. -/
def fieldStr (fs : List (String × JSON)) (key : String) : Except String String :=
  match lookupKey fs key with
  | none => .ok ""
  | some .null => .ok ""
  | some j => asString j

/-- Struct field of type `[]string`: missing or null keeps `[]`. -/
def fieldStrArr (fs : List (String × JSON)) (key : String) :
    Except String (List String) :=
  match lookupKey fs key with
  | none => .ok []
  | some .null => .ok []
  | some j => asStringArr j

/-- Struct field of type `map[string]string`: missing or null keeps the nil
map. -/
def fieldStrMap (fs : List (String × JSON)) (key : String) :
    Except String (List (String × String)) :=
  match lookupKey fs key with
  | none => .ok []
  | some .null => .ok []
  | some j => asStrMap j

/-- Struct field of type `float64` (here carried as an integer): missing or
null keeps `0`. -/
def fieldNum (fs : List (String × JSON)) (key : String) : Except String Int :=
  match lookupKey fs key with
  | none => .ok 0
  | some .null => .ok 0
  | some (.num n) => .ok n
  | some _ => .error "json: cannot unmarshal value into field of type float64"

/-- Struct field of type `[]map[string]string`: missing or null keeps `[]`. -/
def fieldStrMapArr (fs : List (String × JSON)) (key : String) :
    Except String (List (List (String × String))) :=
  match lookupKey fs key with
  | none => .ok []
  | some .null => .ok []
  | some (.arr es) => es.mapM asStrMap
  | some _ => .error "json: cannot unmarshal value into field of type []map[string]string"

/-! ## Response shapes (translate.go:43-91) -/

/-- Separator constant `strSep = "\n"`. -/
def strSep : String := "\n"

/-- LangsListTr: translation-directions response `{dirs, langs}`. -/
structure LangsListTr where
  Dirs : List String
  Langs : List (String × String)
deriving DecidableEq

/-- JSONTrDictExample: `ex` entry of a dictionary item, tags
`pos`, `text`, `tr`. -/
structure JSONTrDictExample where
  Pos : String
  Text : String
  Tr : List (List (String × String))
deriving DecidableEq

/-- JSONTrDictItem: `tr` entry of a dictionary article, tags
`text`, `pos`, `syn`, `mean`, `ex`. -/
structure JSONTrDictItem where
  Text : String
  Pos : String
  Syn : List (List (String × String))
  Mean : List (List (String × String))
  Ex : List JSONTrDictExample
deriving DecidableEq

/-- JSONTrDictArticle: dictionary article.  The struct tags are
`post` (for the field `Pos`), `text`, `ts`, `gen`, `tr` — the tag of `Pos`
is the literal string `post` as written in translate.go:71. -/
structure JSONTrDictArticle where
  Pos : String
  Text : String
  Ts : String
  Gen : String
  Tr : List JSONTrDictItem
deriving DecidableEq

/-- JSONTrDict: dictionary lookup response `{head, def}`. -/
structure JSONTrDict where
  Head : List (String × String)
  Def : List JSONTrDictArticle
deriving DecidableEq

/-- JSONTrResp: translation response `{code, lang, text}`. -/
structure JSONTrResp where
  Code : Int
  Lang : String
  Text : List String
deriving DecidableEq

/-! ## Decoders (json.Unmarshal into the response shapes) -/

/-- Unmarshal into `LangsList` (`[]string`, translate.go:45): the response
body must be a flat JSON array of strings. -/
def decodeLangsList (j : JSON) : Except String (List String) :=
  asStringArr j

/-- Unmarshal into `LangsListTr` (translate.go:48-51). -/
def decodeLangsListTr : JSON → Except String LangsListTr
  | .obj fs => do
    let dirs ← fieldStrArr fs "dirs"
    let langs ← fieldStrMap fs "langs"
    return { Dirs := dirs, Langs := langs }
  | _ => .error "json: cannot unmarshal value into LangsListTr"

/-- Unmarshal into `JSONTrDictExample`. -/
def decodeExample : JSON → Except String JSONTrDictExample
  | .obj fs => do
    let pos ← fieldStr fs "pos"
    let text ← fieldStr fs "text"
    let tr ← fieldStrMapArr fs "tr"
    return { Pos := pos, Text := text, Tr := tr }
  | _ => .error "json: cannot unmarshal value into JSONTrDictExample"

/-- Unmarshal into `JSONTrDictItem`. -/
def decodeItem : JSON → Except String JSONTrDictItem
  | .obj fs => do
    let text ← fieldStr fs "text"
    let pos ← fieldStr fs "pos"
    let syn ← fieldStrMapArr fs "syn"
    let mean ← fieldStrMapArr fs "mean"
    let ex ← (match lookupKey fs "ex" with
      | none => .ok []
      | some .null => .ok []
      | some (.arr es) => es.mapM decodeExample
      | some _ => .error "json: cannot unmarshal value into field ex")
    return { Text := text, Pos := pos, Syn := syn, Mean := mean, Ex := ex }
  | _ => .error "json: cannot unmarshal value into JSONTrDictItem"

/-- Unmarshal into `JSONTrDictArticle`.  The part-of-speech field decodes
from the key `post` (its struct tag in translate.go:71), so a response
carrying the key `pos` leaves `Pos` at its zero value `""`. -/
def decodeArticle : JSON → Except String JSONTrDictArticle
  | .obj fs => do
    let pos ← fieldStr fs "post"
    let text ← fieldStr fs "text"
    let ts ← fieldStr fs "ts"
    let gen ← fieldStr fs "gen"
    let tr ← (match lookupKey fs "tr" with
      | none => .ok []
      | some .null => .ok []
      | some (.arr es) => es.mapM decodeItem
      | some _ => .error "json: cannot unmarshal value into field tr")
    return { Pos := pos, Text := text, Ts := ts, Gen := gen, Tr := tr }
  | _ => .error "json: cannot unmarshal value into JSONTrDictArticle"

/-- Unmarshal into `JSONTrDict`. -/
def decodeJSONTrDict : JSON → Except String JSONTrDict
  | .obj fs => do
    let head ← fieldStrMap fs "head"
    let defs ← (match lookupKey fs "def" with
      | none => .ok []
      | some .null => .ok []
      | some (.arr es) => es.mapM decodeArticle
      | some _ => .error "json: cannot unmarshal value into field def")
    return { Head := head, Def := defs }
  | _ => .error "json: cannot unmarshal value into JSONTrDict"

/-- Unmarshal into `JSONTrResp`. -/
def decodeJSONTrResp : JSON → Except String JSONTrResp
  | .obj fs => do
    let code ← fieldNum fs "code"
    let lang ← fieldStr fs "lang"
    let text ← fieldStrArr fs "text"
    return { Code := code, Lang := lang, Text := text }
  | _ => .error "json: cannot unmarshal value into JSONTrResp"

/-! ## Content and String methods (translate.go:119-163) -/

/-- Content of `LangsList`: sort the list ascending. -/
def LangsList.Content (lg : List String) : List String :=
  sortStrings lg

/-- Content of `LangsListTr`: sort the `Dirs` list ascending. -/
def LangsListTr.Content (lgt : LangsListTr) : List String :=
  sortStrings lgt.Dirs

/-- String method of `JSONTrResp` (translate.go:133-135):
`strings.Join(jstr.Text, strSep)`. -/
def JSONTrResp.String (jstr : JSONTrResp) : String :=
  String.intercalate strSep jstr.Text

/-- String method of `JSONTrDict` (translate.go:139-163): per article the
headword, an optional ` [transliteration] `, an optional
`(part-of-speech)`, then the separator and the translation entries
`text (pos)` joined by separator-plus-two-spaces; articles joined by the
separator. -/
def JSONTrDict.String (jstrd : JSONTrDict) : String :=
  let tabSym := strSep ++ "  "
  let result := jstrd.Def.map (fun d =>
    let ts := if d.Ts ≠ "" then " [" ++ d.Ts ++ "] " else ""
    let txtResult := d.Text ++ ts
    let txtResult := if d.Pos ≠ "" then txtResult ++ "(" ++ d.Pos ++ ")" else txtResult
    let arResult := d.Tr.map (fun tr => tr.Text ++ " (" ++ tr.Pos ++ ")")
    txtResult ++ strSep ++ String.intercalate tabSym arResult)
  String.intercalate strSep result

/-! ## Upstream layer and dispatch engine

The HTTP layer (`request`, translate.go:192-229) is abstracted as an
oracle mapping a URL and its form parameters to either a classified error
or a decoded JSON body; every issued call is recorded in a trace so that
"no upstream call is made" is a provable statement. -/

/-- Config: the API-key fields the core reads (translate.go:25-32). -/
structure Config where
  translationKey : String
  dictionaryKey : String
deriving DecidableEq

/-- One recorded upstream POST: its URL and form parameters. -/
structure Call where
  url : String
  params : List (String × String)
deriving DecidableEq

/-- Upstream oracle: the environment's response for a given URL and
parameter set. -/
def Upstream : Type :=
  String → List (String × String) → Except String JSON

/-- urlMap of the main file: service URLs keyed by role. -/
def urlMap : String → String
  | "translate" => "https://translate.yandex.net/api/v1.5/tr.json/translate"
  | "dictionary" => "https://dictionary.yandex.net/api/v1/dicservice.json/lookup"
  | "trLangs" => "https://translate.yandex.net/api/v1.5/tr.json/getLangs"
  | "dictLangs" => "https://dictionary.yandex.net/api/v1/dicservice.json/getLangs"
  | _ => ""

/-- Model of `request` (translate.go:192-229): issue one POST — recorded in
the trace — and return the oracle's classified outcome. -/
def request (up : Upstream) (urlValue : String) (params : List (String × String)) :
    Except String JSON × List Call :=
  (up urlValue params, [{ url := urlValue, params := params }])

/-- Package-level mutable state shared by requests: the two catalogs and
the `langsOnce` single-fire gate. -/
structure BotState where
  trLangs : List String
  dictLangs : List String
  onceFired : Bool
deriving DecidableEq

/-- State at process start: empty catalogs, gate not yet fired. -/
def initialState : BotState :=
  { trLangs := [], dictLangs := [], onceFired := false }

/-- Model of `getLangs` (translate.go:232-260): pick URL, parameters and
decoder by `isTr`, issue the request, decode, and return the sorted
direction list via `Content`. -/
def getLangs (up : Upstream) (ctx : Option Config) (isTr : Bool) :
    Except String (List String) × List Call :=
  match ctx with
  | none => (.error "configuration ctx not found", [])
  | some c =>
    if isTr then
      let r := request up (urlMap "trLangs") [("key", c.translationKey)]
      (r.1.bind (fun body => (decodeLangsListTr body).map LangsListTr.Content), r.2)
    else
      let r := request up (urlMap "dictLangs")
        [("key", c.dictionaryKey), ("ui", "en")]
      (r.1.bind (fun body => (decodeLangsList body).map LangsList.Content), r.2)

/-- Model of `initLanguages` (translate.go:263-274), exactly as written in
the source: `trLangs, err = getLangs(ctx, true)` and then
`dictLangs, err = getLangs(ctx, true)` — the second call also passes
`true`. -/
def initLanguages (up : Upstream) (ctx : Option Config) (st : BotState) :
    BotState × Except String Unit × List Call :=
  match getLangs up ctx true with
  | (.error e, cs) => (st, .error e, cs)
  | (.ok tl, cs1) =>
    let st1 := { st with trLangs := tl }
    match getLangs up ctx true with
    | (.error e, cs2) => (st1, .error e, cs1 ++ cs2)
    | (.ok dl, cs2) => ({ st1 with dictLangs := dl }, .ok (), cs1 ++ cs2)

/-- The `langsOnce.Do(func() { initLanguages(ctx) })` step of
`isDirection` (translate.go:279-281): on the first passage the populate
routine runs with its error discarded, and the gate is consumed whether or
not population succeeded; afterwards the step is a no-op. -/
def afterOnce (up : Upstream) (ctx : Option Config) (st : BotState) :
    BotState × List Call :=
  if st.onceFired then (st, [])
  else
    let r := initLanguages up ctx st
    ({ r.1 with onceFired := true }, r.2.2)

/-- Model of `isDirection` (translate.go:277-291): run the once-gated
population, select the catalog by `isTr`, and binary-search it.  The Go
function returns `(bool, error)` but never a non-nil error; the `Option
String` component records that the returned error is always nil. -/
def isDirection (up : Upstream) (ctx : Option Config) (st : BotState)
    (direction : String) (isTr : Bool) :
    BotState × (Bool × Option String) × List Call :=
  let (st1, cs) := afterOnce up ctx st
  let languages := if isTr then st1.trLangs else st1.dictLangs
  (st1, (isKnown languages direction, none), cs)

/-- Model of `getTranslation` (translate.go:294-331): pick URL, parameters
and result shape by `isTr`, issue the request, decode, and render with the
shape's String method. -/
def getTranslation (up : Upstream) (ctx : Option Config) (isTr : Bool)
    (direction text : String) : Except String String × List Call :=
  match ctx with
  | none => (.error "configuration ctx not found", [])
  | some c =>
    if isTr then
      let r := request up (urlMap "translate")
        [("lang", direction), ("text", text), ("key", c.translationKey),
         ("format", "plain")]
      (r.1.bind (fun body => (decodeJSONTrResp body).map JSONTrResp.String), r.2)
    else
      let r := request up (urlMap "dictionary")
        [("lang", direction), ("text", text), ("key", c.dictionaryKey)]
      (r.1.bind (fun body => (decodeJSONTrDict body).map JSONTrDict.String), r.2)

/-- Parsing steps of `Translate` (translate.go:338-349): the leftmost
direction match, the payload `strings.Trim(text[found[0][1]:], " ")`, and
the intent flag `len(strings.SplitN(parsed, " ", 2)) > 1`. -/
def parseInput (text : String) : Option (String × String × Bool) :=
  match findDirection text with
  | none => none
  | some (m, rest) =>
    let direction := goTrim m
    let parsed := goTrim rest
    let isTr := decide (1 < (goSplitN2 parsed).length)
    some (direction, parsed, isTr)

/-- Model of `Translate` (translate.go:335-363): scan for a direction,
classify intent, validate the direction against the catalog (triggering
the once-gated population), and on success fetch and render the upstream
content.  Returns the updated shared state, the `(result, error)` pair as
an `Except`, and the trace of upstream calls issued. -/
def Translate (up : Upstream) (ctx : Option Config) (st : BotState)
    (text : String) : BotState × Except String String × List Call :=
  match parseInput text with
  | none => (st, .ok "", [])
  | some (direction, parsed, isTr) =>
    let (st1, res, cs1) := isDirection up ctx st direction isTr
    match res.2 with
    | some e => (st1, .error e, cs1)
    | none =>
      if res.1 = false then (st1, .ok "", cs1)
      else
        match getTranslation up ctx isTr direction parsed with
        | (.error e, cs2) => (st1, .error e, cs1 ++ cs2)
        | (.ok r, cs2) => (st1, .ok r, cs1 ++ cs2)

/-- A content call: a POST to the translate or the dictionary lookup
endpoint (as opposed to a catalog-population call). -/
def isContentCall (c : Call) : Bool :=
  c.url == urlMap "translate" || c.url == urlMap "dictionary"

/-! ## Order facts about the bytewise string comparison -/

theorem charToNat_inj {a b : Char} (h : a.toNat = b.toNat) : a = b := by
  have hv : a.val = b.val := UInt32.eq_of_val_eq (Fin.ext h)
  exact Char.eq_of_val_eq hv

theorem goLeChars_cons (x y : Char) (xs ys : List Char) :
    goLeChars (x :: xs) (y :: ys) = true ↔
      (x.toNat < y.toNat ∨ (x.toNat = y.toNat ∧ goLeChars xs ys = true)) := by
  by_cases h1 : x.toNat < y.toNat
  · simp [goLeChars, h1]
  · by_cases h2 : y.toNat < x.toNat
    · simp only [goLeChars, if_neg h1, if_pos h2]
      constructor
      · intro h
        exact absurd h (by simp)
      · rintro (h | ⟨he, _⟩) <;> omega
    · have he : x.toNat = y.toNat := by omega
      simp [goLeChars, h1, h2, he]

theorem goLeChars_refl (l : List Char) : goLeChars l l = true := by
  induction l with
  | nil => rfl
  | cons a as ih => rw [goLeChars_cons]; exact Or.inr ⟨rfl, ih⟩

theorem goLeChars_trans : ∀ (a b c : List Char),
    goLeChars a b = true → goLeChars b c = true → goLeChars a c = true
  | [], _, _, _, _ => rfl
  | _ :: _, [], _, h, _ => by simp [goLeChars] at h
  | _ :: _, _ :: _, [], _, h => by simp [goLeChars] at h
  | x :: xs, y :: ys, z :: zs, h1, h2 => by
    rw [goLeChars_cons] at h1 h2 ⊢
    rcases h1 with h1 | ⟨he1, hr1⟩
    · rcases h2 with h2 | ⟨he2, _⟩
      · exact Or.inl (by omega)
      · exact Or.inl (by omega)
    · rcases h2 with h2 | ⟨he2, hr2⟩
      · exact Or.inl (by omega)
      · exact Or.inr ⟨by omega, goLeChars_trans xs ys zs hr1 hr2⟩

theorem goLeChars_antisymm : ∀ (a b : List Char),
    goLeChars a b = true → goLeChars b a = true → a = b
  | [], [], _, _ => rfl
  | [], _ :: _, _, h => by simp [goLeChars] at h
  | _ :: _, [], h, _ => by simp [goLeChars] at h
  | x :: xs, y :: ys, h1, h2 => by
    rw [goLeChars_cons] at h1 h2
    have he : x.toNat = y.toNat := by
      rcases h1 with h1 | ⟨he1, _⟩ <;> rcases h2 with h2 | ⟨he2, _⟩ <;> omega
    rcases h1 with h1 | ⟨_, hr1⟩
    · omega
    rcases h2 with h2 | ⟨_, hr2⟩
    · omega
    rw [charToNat_inj he, goLeChars_antisymm xs ys hr1 hr2]

theorem goStrLe_refl (a : String) : goStrLe a a = true :=
  goLeChars_refl a.data

theorem goStrLe_trans {a b c : String} (h1 : goStrLe a b = true)
    (h2 : goStrLe b c = true) : goStrLe a c = true :=
  goLeChars_trans a.data b.data c.data h1 h2

theorem goStrLe_antisymm {a b : String} (h1 : goStrLe a b = true)
    (h2 : goStrLe b a = true) : a = b := by
  exact congrArg String.mk (goLeChars_antisymm a.data b.data h1 h2)

/-! ## Correctness of the binary-search loop -/

theorem searchLoop_spec (f : Nat → Bool) (n : Nat)
    (hmono : ∀ k l, k ≤ l → l < n → f k = true → f l = true) :
    ∀ (fuel i j : Nat), i ≤ j → j ≤ n → j - i ≤ fuel →
      (∀ k, k < i → f k = false) → (∀ k, j ≤ k → k < n → f k = true) →
      i ≤ searchLoop f fuel i j ∧ searchLoop f fuel i j ≤ j ∧
        (∀ k, k < searchLoop f fuel i j → f k = false) ∧
        (∀ k, searchLoop f fuel i j ≤ k → k < n → f k = true) := by
  intro fuel
  induction fuel with
  | zero =>
    intro i j hij hjn hfuel hlow hhigh
    have hji : i = j := by omega
    subst hji
    exact ⟨Nat.le_refl i, Nat.le_refl i, hlow, hhigh⟩
  | succ fu ih =>
    intro i j hij hjn hfuel hlow hhigh
    by_cases hlt : i < j
    · have hm1 : i ≤ (i + j) / 2 := by omega
      have hm2 : (i + j) / 2 < j := by omega
      by_cases hf : f ((i + j) / 2) = true
      · have hres : searchLoop f (fu + 1) i j = searchLoop f fu i ((i + j) / 2) := by
          simp [searchLoop, hlt, hf]
        rw [hres]
        have h1 := ih i ((i + j) / 2) hm1 (by omega) (by omega) hlow
          (fun k hk hkn => hmono ((i + j) / 2) k hk hkn hf)
        exact ⟨h1.1, Nat.le_trans h1.2.1 (Nat.le_of_lt hm2), h1.2.2.1, h1.2.2.2⟩
      · have hres : searchLoop f (fu + 1) i j = searchLoop f fu ((i + j) / 2 + 1) j := by
          simp [searchLoop, hlt, hf]
        rw [hres]
        have h1 := ih ((i + j) / 2 + 1) j (by omega) hjn (by omega) ?_ hhigh
        · exact ⟨by omega, h1.2.1, h1.2.2.1, h1.2.2.2⟩
        · intro k hk
          by_cases hki : k < i
          · exact hlow k hki
          · by_cases hfk : f k = true
            · exact absurd (hmono k ((i + j) / 2) (by omega) (by omega) hfk)
                (by simpa using hf)
            · simpa using hfk
    · have hres : searchLoop f (fu + 1) i j = i := by
        simp [searchLoop, hlt]
      rw [hres]
      have hji : i = j := by omega
      subst hji
      exact ⟨Nat.le_refl i, Nat.le_refl i, hlow, hhigh⟩

/-- Soundness of the membership test, on arbitrary (even unsorted)
catalogs: a `true` answer always pins an actual element. -/
theorem isKnown_mem {L : List String} {d : String} (h : isKnown L d = true) :
    d ∈ L := by
  unfold isKnown at h
  rw [Bool.and_eq_true, decide_eq_true_eq, beq_iff_eq] at h
  obtain ⟨hlt, heq⟩ := h
  rw [List.getD_eq_getElem L "" hlt] at heq
  rw [← heq]
  exact List.getElem_mem hlt

/-- Completeness of the membership test on sorted catalogs. -/
theorem isKnown_complete {L : List String} {d : String}
    (hs : List.Pairwise (fun a b => goStrLe a b = true) L) (hm : d ∈ L) :
    isKnown L d = true := by
  have hget : ∀ k l : Nat, k ≤ l → (hl : l < L.length) →
      goStrLe (L.getD k "") (L.getD l "") = true := by
    intro k l hkl hl
    rcases Nat.eq_or_lt_of_le hkl with heq | hlt
    · subst heq
      exact goStrLe_refl _
    · have hk : k < L.length := Nat.lt_trans hlt hl
      rw [List.getD_eq_getElem L "" hk, List.getD_eq_getElem L "" hl]
      exact List.pairwise_iff_get.mp hs ⟨k, hk⟩ ⟨l, hl⟩ hlt
  have hmono : ∀ k l, k ≤ l → l < L.length →
      (fun i => goStrLe d (L.getD i "")) k = true →
      (fun i => goStrLe d (L.getD i "")) l = true := by
    intro k l hkl hl hk
    exact goStrLe_trans hk (hget k l hkl hl)
  obtain ⟨_, hrj, hfalse, htrue⟩ := searchLoop_spec
    (fun i => goStrLe d (L.getD i "")) L.length hmono
    L.length 0 L.length (Nat.zero_le _) (Nat.le_refl _) (by omega)
    (fun k hk => absurd hk (Nat.not_lt_zero k))
    (fun k hk hkn => absurd hkn (Nat.not_lt.mpr hk))
  obtain ⟨idx, hidx⟩ := List.get_of_mem hm
  have hidxD : L.getD idx.1 "" = d := by
    rw [List.getD_eq_getElem L "" idx.2, ← hidx]
    rfl
  have hridx : searchLoop (fun i => goStrLe d (L.getD i "")) L.length 0 L.length
      ≤ idx.1 := by
    by_contra hcon
    have hfi := hfalse idx.1 (by omega)
    rw [hidxD, goStrLe_refl d] at hfi
    exact absurd hfi (by simp)
  have hrn : searchLoop (fun i => goStrLe d (L.getD i "")) L.length 0 L.length
      < L.length := Nat.lt_of_le_of_lt hridx idx.2
  have hfr := htrue _ (Nat.le_refl _) hrn
  have hrd : goStrLe
      (L.getD (searchLoop (fun i => goStrLe d (L.getD i "")) L.length 0 L.length) "")
      d = true := by
    have hh := hget _ idx.1 hridx idx.2
    rwa [hidxD] at hh
  have heq := goStrLe_antisymm hrd hfr
  unfold isKnown
  rw [Bool.and_eq_true, decide_eq_true_eq, beq_iff_eq]
  exact ⟨hrn, heq⟩

/-! ## Claim C6 -/

/-- C6: the catalog membership test of `isDirection` is exact binary-search
membership: for every ascending-sorted catalog list `L` and every
direction string `d`, the test reports `true` if and only if `d` is an
element of `L` — no fuzzy or partial matching. -/
theorem c6_isKnown_binary_search_membership (L : List String) (d : String)
    (hs : List.Pairwise (fun a b => goStrLe a b = true) L) :
    isKnown L d = true ↔ d ∈ L :=
  ⟨isKnown_mem, isKnown_complete hs⟩

/-- Witness for C6 on a concrete sorted catalog. -/
theorem c6_isKnown_binary_search_membership_witness :
    List.Pairwise (fun a b => goStrLe a b = true) ["ab-cd", "en-ru", "ru-en"] ∧
    (isKnown ["ab-cd", "en-ru", "ru-en"] "en-ru" = true
      ↔ "en-ru" ∈ ["ab-cd", "en-ru", "ru-en"]) :=
  ⟨by decide,
    c6_isKnown_binary_search_membership ["ab-cd", "en-ru", "ru-en"] "en-ru" (by decide)⟩

/-! ## Concrete scenarios: configurations, states and upstream stubs -/

/-- A configuration with distinct keys per service. -/
def testCfg : Config :=
  { translationKey := "tkey", dictionaryKey := "dkey" }

/-- A state whose catalogs are populated with `en-ru` and whose once-gate
has already fired. -/
def populatedState : BotState :=
  { trLangs := ["en-ru"], dictLangs := ["en-ru"], onceFired := true }

/-- Upstream on which every request fails (population cannot succeed). -/
def failingUpstream : Upstream :=
  fun _ _ => .error "connection refused"

/-- Healthy upstream for catalog population: the translation-directions
endpoint returns `{dirs: ["en-ru", "ru-hu"], langs: {...}}` and the
dictionary-directions endpoint returns `["aa-bb"]`. -/
def langsUpstream : Upstream := fun url _ =>
  if url = urlMap "trLangs" then
    .ok (.obj [("dirs", .arr [.str "ru-hu", .str "en-ru"]),
               ("langs", .obj [("ru", .str "русский"), ("en", .str "английский")])])
  else if url = urlMap "dictLangs" then
    .ok (.arr [.str "aa-bb"])
  else .error "404"

/-! ## Claim C1 -/

/-- C1: the claim fails on the code, which is the slip — the spec's stated
behaviour (surface the population error, retry later) is the intent.
`isDirection` runs `langsOnce.Do(func() { initLanguages(ctx) })`,
discarding the error of `initLanguages`, and the once-gate is consumed
even on failure.  Concretely: with every upstream call failing, the
`Translate` call that triggers population returns `("", nil)` — no error
surfaced — with the gate consumed and the catalogs left empty; a later
`Translate` call against a now-healthy upstream performs no upstream call
at all (population is never retried) and still answers `("", nil)` out of
the permanently empty catalog. -/
theorem c1_population_failure_swallowed_and_cached :
    (Translate failingUpstream (some testCfg) initialState "en-ru hello there").2.1
      = Except.ok "" ∧
    (Translate failingUpstream (some testCfg) initialState "en-ru hello there").1
      = { trLangs := [], dictLangs := [], onceFired := true } ∧
    (Translate langsUpstream (some testCfg)
      (Translate failingUpstream (some testCfg) initialState "en-ru hello there").1
      "en-ru hello there").2.1 = Except.ok "" ∧
    (Translate langsUpstream (some testCfg)
      (Translate failingUpstream (some testCfg) initialState "en-ru hello there").1
      "en-ru hello there").2.2 = [] :=
  ⟨rfl, rfl, rfl, rfl⟩

/-! ## Claim C2 -/

/-- C2: the claim fails on the code, which is the slip — `initLanguages`
(translate.go:263-274) assigns `dictLangs, err = getLangs(ctx, true)`,
re-reading the translation-directions endpoint instead of calling
`getLangs(ctx, false)`; the dictionary-directions branch of `getLangs` is
dead code.  Concretely, with the translation-directions endpoint serving
`{dirs: ["ru-hu", "en-ru"]}` and the dictionary-directions endpoint serving
`["aa-bb"]`, population succeeds, the translation catalog is the sorted
`dirs` list as claimed, but the dictionary catalog is also the sorted
`dirs` list — not the sorted dictionary list — and both recorded calls go
to the translation-directions URL with the translation key only (the
dictionary key and `ui=en` are never sent). -/
theorem c2_dictionary_catalog_loaded_from_translation_service :
    (initLanguages langsUpstream (some testCfg) initialState).2.1 = Except.ok () ∧
    (initLanguages langsUpstream (some testCfg) initialState).1.trLangs
      = ["en-ru", "ru-hu"] ∧
    (initLanguages langsUpstream (some testCfg) initialState).1.dictLangs
      = ["en-ru", "ru-hu"] ∧
    (initLanguages langsUpstream (some testCfg) initialState).1.dictLangs
      ≠ sortStrings ["aa-bb"] ∧
    (initLanguages langsUpstream (some testCfg) initialState).2.2
      = [{ url := urlMap "trLangs", params := [("key", "tkey")] },
         { url := urlMap "trLangs", params := [("key", "tkey")] }] :=
  ⟨rfl, rfl, rfl, by decide, rfl⟩

/-! ## Claim C3 -/

/-- Dictionary-lookup upstream returning the stub article
`{text: "time", pos: "noun", tr: [{text: "время", pos: "существительное"}]}`. -/
def dictStubUpstream : Upstream := fun url _ =>
  if url = urlMap "dictionary" then
    .ok (.obj [("head", .obj []),
      ("def", .arr [.obj [("text", .str "time"), ("pos", .str "noun"),
        ("tr", .arr [.obj [("text", .str "время"),
                           ("pos", .str "существительное")]])]])])
  else .error "404"

/-- C3: the claim fails on the code, which is the slip — the struct tag of
the article part-of-speech field is `post` (translate.go:71), a typo for
`pos`, so the stub's `pos: "noun"` never populates the field and the
headword renders without `(noun)`.  Concretely, with the stub dictionary
upstream and `en-ru` in the catalog, `Translate(ctx, "en-ru dictionary")`
returns `"time\nвремя (существительное)"`, not the claimed
`"time(noun)\nвремя (существительное)"`. -/
theorem c3_article_pos_lost_to_post_tag :
    (Translate dictStubUpstream (some testCfg) populatedState "en-ru dictionary").2.1
      = Except.ok "time\nвремя (существительное)" ∧
    "time\nвремя (существительное)" ≠ "time(noun)\nвремя (существительное)" :=
  ⟨rfl, by decide⟩

/-! ## Claim C4 -/

/-- The split of `strings.SplitN(s, " ", 2)` has one or two parts. -/
theorem goSplitN2_length (s : String) :
    (goSplitN2 s).length = 1 ∨ (goSplitN2 s).length = 2 := by
  unfold goSplitN2
  cases s.data.findIdx? (fun c => c == ' ') <;> simp

/-- C4: intent classification.  Whenever the input parses (a direction
token was found), the translation service is selected exactly when the
payload splits on the first space into two parts, and the dictionary
service (Lookup) is selected when the payload is a single token or empty.
In particular `"en-ru dictionary"` parses to Lookup and
`"en-ru translate some words"` parses to Translate. -/
theorem c4_intent_classification :
    (∀ text d p i, parseInput text = some (d, p, i) →
      (i = true ↔ (goSplitN2 p).length = 2)) ∧
    parseInput "en-ru dictionary" = some ("en-ru", "dictionary", false) ∧
    parseInput "en-ru translate some words"
      = some ("en-ru", "translate some words", true) := by
  refine ⟨?_, by decide, by decide⟩
  intro text d p i h
  unfold parseInput at h
  cases hf : findDirection text with
  | none => rw [hf] at h; exact absurd h (by simp)
  | some mr =>
    rw [hf] at h
    simp only [Option.some_inj, Prod.mk.injEq] at h
    obtain ⟨-, hp, hi⟩ := h
    rw [← hp, ← hi]
    rcases goSplitN2_length (goTrim mr.2) with hl | hl <;> simp [hl]

/-- Witness for C4 at a concrete parsed input. -/
theorem c4_intent_classification_witness :
    parseInput "en-ru translate some words"
      = some ("en-ru", "translate some words", true) ∧
    (true = true ↔ (goSplitN2 "translate some words").length = 2) :=
  ⟨by decide,
    c4_intent_classification.1 "en-ru translate some words"
      "en-ru" "translate some words" true (by decide)⟩

/-! ## Claim C7 -/

/-- Translation upstream returning the stub
`{"code": 200, "lang": "en-ru", "text": ["Hello, World!"]}`. -/
def translateStubUpstream : Upstream := fun url _ =>
  if url = urlMap "translate" then
    .ok (.obj [("code", .num 200), ("lang", .str "en-ru"),
               ("text", .arr [.str "Hello, World!"])])
  else .error "404"

/-- C7: the translation reducer joins the upstream text-fragment sequence
with the single-newline separator, the empty sequence yields the empty
string, and with the stub translation upstream and `en-ru` in the
translation catalog, `Translate(ctx, "en-ru translate hi there")` returns
`"Hello, World!"`. -/
theorem c7_translation_reducer_joins_fragments :
    (∀ r : JSONTrResp, JSONTrResp.String r = String.intercalate strSep r.Text) ∧
    strSep = "\n" ∧
    (∀ r : JSONTrResp, r.Text = [] → JSONTrResp.String r = "") ∧
    (Translate translateStubUpstream (some testCfg) populatedState
      "en-ru translate hi there").2.1 = Except.ok "Hello, World!" := by
  refine ⟨fun r => rfl, rfl, ?_, rfl⟩
  intro r h
  unfold JSONTrResp.String
  rw [h]
  rfl

/-- Witness for C7: the empty fragment sequence renders as the empty
string. -/
theorem c7_translation_reducer_joins_fragments_witness :
    JSONTrResp.String { Code := 200, Lang := "en-ru", Text := [] } = "" :=
  c7_translation_reducer_joins_fragments.2.2.1
    { Code := 200, Lang := "en-ru", Text := [] } rfl

/-! ## Claim C5 -/

/-- Every call issued by `getLangs` goes to one of the two
direction-catalog endpoints. -/
theorem getLangs_calls_are_langs_calls (up : Upstream) (ctx : Option Config)
    (b : Bool) :
    ∀ c ∈ (getLangs up ctx b).2,
      c.url = urlMap "trLangs" ∨ c.url = urlMap "dictLangs" := by
  intro c hc
  cases ctx with
  | none => unfold getLangs at hc; simp at hc
  | some cf =>
    cases b with
    | true =>
      have hcc : (getLangs up (some cf) true).2
          = [{ url := urlMap "trLangs",
               params := [("key", cf.translationKey)] }] := rfl
      rw [hcc] at hc
      simp at hc
      rw [hc]
      exact Or.inl rfl
    | false =>
      have hcc : (getLangs up (some cf) false).2
          = [{ url := urlMap "dictLangs",
               params := [("key", cf.dictionaryKey), ("ui", "en")] }] := rfl
      rw [hcc] at hc
      simp at hc
      rw [hc]
      exact Or.inr rfl

/-- Every call issued by `initLanguages` goes to one of the two
direction-catalog endpoints. -/
theorem initLanguages_calls_are_langs_calls (up : Upstream) (ctx : Option Config)
    (st : BotState) :
    ∀ c ∈ (initLanguages up ctx st).2.2,
      c.url = urlMap "trLangs" ∨ c.url = urlMap "dictLangs" := by
  intro c hc
  unfold initLanguages at hc
  split at hc
  · rename_i heq
    simp only at hc
    exact getLangs_calls_are_langs_calls up ctx true c (by rw [heq]; exact hc)
  · rename_i tl cs1 heq
    split at hc
    · rename_i heq2
      simp at heq2
    · rename_i heq2
      injection heq2 with h1 h2
      subst h2
      simp only [List.mem_append] at hc
      rcases hc with hc | hc <;>
        exact getLangs_calls_are_langs_calls up ctx true c (by rw [heq]; exact hc)

/-- Every call issued by the once-gated population step goes to one of the
two direction-catalog endpoints. -/
theorem afterOnce_calls_are_langs_calls (up : Upstream) (ctx : Option Config)
    (st : BotState) :
    ∀ c ∈ (afterOnce up ctx st).2,
      c.url = urlMap "trLangs" ∨ c.url = urlMap "dictLangs" := by
  intro c hc
  unfold afterOnce at hc
  split at hc
  · simp at hc
  · exact initLanguages_calls_are_langs_calls up ctx st c hc

/-- A catalog-endpoint call is not a content call. -/
theorem langs_call_not_content {c : Call}
    (h : c.url = urlMap "trLangs" ∨ c.url = urlMap "dictLangs") :
    isContentCall c = false := by
  unfold isContentCall
  rcases h with h | h <;> rw [h] <;> decide

/-- C5: for every input text that either contains no substring matching
the direction pattern, or whose first match is absent from the catalog of
the service implied by the intent (the catalog as it stands after the
once-gated population step), `Translate` returns the empty string with nil
error, and no translate/lookup content call is issued — at most the
catalog-population calls are made. -/
theorem c5_no_direction_or_unknown_empty_and_no_content_call
    (up : Upstream) (ctx : Option Config) (st : BotState) (text : String) :
    (parseInput text = none →
      Translate up ctx st text = (st, Except.ok "", [])) ∧
    (∀ d p i, parseInput text = some (d, p, i) →
      d ∉ (if i then (afterOnce up ctx st).1.trLangs
           else (afterOnce up ctx st).1.dictLangs) →
      (Translate up ctx st text).2.1 = Except.ok "" ∧
      ∀ c ∈ (Translate up ctx st text).2.2, isContentCall c = false) := by
  constructor
  · intro h
    unfold Translate
    rw [h]
  · intro d p i h hmem
    have hiso : isDirection up ctx st d i
        = ((afterOnce up ctx st).1,
           (isKnown (if i then (afterOnce up ctx st).1.trLangs
                     else (afterOnce up ctx st).1.dictLangs) d, none),
           (afterOnce up ctx st).2) := rfl
    have hknown : isKnown (if i then (afterOnce up ctx st).1.trLangs
        else (afterOnce up ctx st).1.dictLangs) d = false := by
      cases hk : isKnown (if i then (afterOnce up ctx st).1.trLangs
          else (afterOnce up ctx st).1.dictLangs) d
      · rfl
      · exact absurd (isKnown_mem hk) hmem
    have htr : Translate up ctx st text
        = ((afterOnce up ctx st).1, Except.ok "", (afterOnce up ctx st).2) := by
      unfold Translate
      rw [h]
      simp only [hiso, hknown]
      simp
    rw [htr]
    refine ⟨rfl, ?_⟩
    intro c hc
    exact langs_call_not_content (afterOnce_calls_are_langs_calls up ctx st c hc)

/-- Witness for C5: a text with no direction-shaped substring, and a
direction-shaped but unknown code against a populated upstream. -/
theorem c5_no_direction_or_unknown_empty_and_no_content_call_witness :
    Translate langsUpstream (some testCfg) initialState "text"
      = (initialState, Except.ok "", []) ∧
    ((Translate langsUpstream (some testCfg) initialState "zz-zz some text").2.1
        = Except.ok "" ∧
      ∀ c ∈ (Translate langsUpstream (some testCfg) initialState
        "zz-zz some text").2.2, isContentCall c = false) :=
  ⟨(c5_no_direction_or_unknown_empty_and_no_content_call langsUpstream
      (some testCfg) initialState "text").1 (by decide),
   (c5_no_direction_or_unknown_empty_and_no_content_call langsUpstream
      (some testCfg) initialState "zz-zz some text").2 "zz-zz" "some text" true
      (by decide) (by decide)⟩

/-! ## Claim C8 -/

/-- Trace of `getTranslation`: one content call with the service-specific
parameter set, or none when the configuration is missing. -/
theorem getTranslation_trace (up : Upstream) (ctx : Option Config) (isTr : Bool)
    (direction text : String) :
    (getTranslation up ctx isTr direction text).2
      = match ctx with
        | none => []
        | some c =>
          if isTr then
            [{ url := urlMap "translate",
               params := [("lang", direction), ("text", text),
                          ("key", c.translationKey), ("format", "plain")] }]
          else
            [{ url := urlMap "dictionary",
               params := [("lang", direction), ("text", text),
                          ("key", c.dictionaryKey)] }] := by
  cases ctx <;> cases isTr <;> rfl

/-- Dispatch equation for a parsed input whose direction passes the
catalog test: state advances past the once-gate and the result and the
content call are those of `getTranslation`. -/
theorem Translate_known (up : Upstream) (ctx : Option Config) (st : BotState)
    (text d p : String) (i : Bool)
    (h : parseInput text = some (d, p, i))
    (hk : isKnown (if i then (afterOnce up ctx st).1.trLangs
                   else (afterOnce up ctx st).1.dictLangs) d = true) :
    Translate up ctx st text
      = ((afterOnce up ctx st).1, (getTranslation up ctx i d p).1,
         (afterOnce up ctx st).2 ++ (getTranslation up ctx i d p).2) := by
  have hiso : isDirection up ctx st d i
      = ((afterOnce up ctx st).1,
         (isKnown (if i then (afterOnce up ctx st).1.trLangs
                   else (afterOnce up ctx st).1.dictLangs) d, none),
         (afterOnce up ctx st).2) := rfl
  unfold Translate
  rw [h]
  simp only [hiso, hk]
  rcases hgt : getTranslation up ctx i d p with ⟨e | r, cs2⟩ <;> simp [hgt]

/-- C8 counterexample: on the input `"en-ru  hi "` the text following the
matched token is `"  hi "`; trimming a single leading space would give
`" hi "`, but the payload actually sent to the upstream service is `"hi"` —
`strings.Trim(s, " ")` removes all leading and trailing spaces. -/
theorem c8_single_leading_space_counterexample :
    findDirection "en-ru  hi " = some ("en-ru", "  hi ") ∧
    (Translate dictStubUpstream (some testCfg) populatedState "en-ru  hi ").2.2
      = [{ url := urlMap "dictionary",
           params := [("lang", "en-ru"), ("text", "hi"), ("key", "dkey")] }] ∧
    ("hi" : String) ≠ " hi " :=
  ⟨rfl, rfl, by decide⟩

/-- C8 amended: for every input containing a direction token, the payload
sent to the upstream service is exactly the text following the matched
token with all leading and all trailing space characters removed (not just
a single leading space). -/
theorem c8_payload_is_rest_trimmed_of_all_spaces (up : Upstream)
    (ctx : Option Config) (st : BotState) (text m rest : String)
    (h : findDirection text = some (m, rest)) :
    ∀ c ∈ (Translate up ctx st text).2.2, isContentCall c = true →
      List.lookup "text" c.params = some (goTrim rest) := by
  intro c hc hcontent
  have hp : parseInput text
      = some (goTrim m, goTrim rest,
              decide (1 < (goSplitN2 (goTrim rest)).length)) := by
    unfold parseInput
    rw [h]
  by_cases hk : isKnown
      (if decide (1 < (goSplitN2 (goTrim rest)).length)
       then (afterOnce up ctx st).1.trLangs
       else (afterOnce up ctx st).1.dictLangs) (goTrim m) = true
  · rw [Translate_known up ctx st text (goTrim m) (goTrim rest)
        (decide (1 < (goSplitN2 (goTrim rest)).length)) hp hk] at hc
    simp only [List.mem_append] at hc
    rcases hc with hc | hc
    · rw [langs_call_not_content (afterOnce_calls_are_langs_calls up ctx st c hc)]
        at hcontent
      exact absurd hcontent (by simp)
    · rw [getTranslation_trace] at hc
      cases ctx with
      | none => simp at hc
      | some cf =>
        cases hi : decide (1 < (goSplitN2 (goTrim rest)).length) with
        | true =>
          rw [hi] at hc
          simp at hc
          rw [hc]
          rfl
        | false =>
          rw [hi] at hc
          simp at hc
          rw [hc]
          rfl
  · have hkf : isKnown
        (if decide (1 < (goSplitN2 (goTrim rest)).length)
         then (afterOnce up ctx st).1.trLangs
         else (afterOnce up ctx st).1.dictLangs) (goTrim m) = false := by
      cases hx : isKnown
          (if decide (1 < (goSplitN2 (goTrim rest)).length)
           then (afterOnce up ctx st).1.trLangs
           else (afterOnce up ctx st).1.dictLangs) (goTrim m)
      · rfl
      · exact absurd hx hk
    have hiso : isDirection up ctx st (goTrim m)
        (decide (1 < (goSplitN2 (goTrim rest)).length))
        = ((afterOnce up ctx st).1,
           (isKnown (if decide (1 < (goSplitN2 (goTrim rest)).length)
                     then (afterOnce up ctx st).1.trLangs
                     else (afterOnce up ctx st).1.dictLangs) (goTrim m), none),
           (afterOnce up ctx st).2) := rfl
    have htr : Translate up ctx st text
        = ((afterOnce up ctx st).1, Except.ok "", (afterOnce up ctx st).2) := by
      unfold Translate
      rw [hp]
      simp only [hiso, hkf]
      simp
    rw [htr] at hc
    rw [langs_call_not_content (afterOnce_calls_are_langs_calls up ctx st c hc)]
      at hcontent
    exact absurd hcontent (by simp)

/-- Witness for C8 (amended): the content call of a concrete dispatch
carries the fully trimmed payload. -/
theorem c8_payload_is_rest_trimmed_of_all_spaces_witness :
    findDirection "en-ru  hi " = some ("en-ru", "  hi ") ∧
    List.lookup "text"
      [("lang", "en-ru"), ("text", "hi"), ("key", "dkey")] = some (goTrim "  hi ") :=
  ⟨by decide,
    c8_payload_is_rest_trimmed_of_all_spaces dictStubUpstream (some testCfg)
      populatedState "en-ru  hi " "en-ru" "  hi " (by decide)
      { url := urlMap "dictionary",
        params := [("lang", "en-ru"), ("text", "hi"), ("key", "dkey")] }
      (by decide) (by decide)⟩

/-! ## Claim C10 -/

/-- C10: the direction-token scan is unanchored with no word-boundary
requirement.  The scan returns the leftmost position at which the raw
character sequence matches two-or-three lowercase letters, a hyphen, and
two-or-three lowercase letters (no position before it matches, and the
match needs no surrounding delimiters); in particular the input
`"well-known words"` yields the inner candidate direction `"ell-kno"`,
with everything before the match discarded and the remainder
`"wn words"` carried on as the payload source. -/
theorem c10_unanchored_leftmost_scan :
    (∀ (cs : List Char) (s l : Nat), findMatch cs = some (s, l) →
      matchAt (List.drop s cs) = some l ∧
        ∀ p, p < s → matchAt (List.drop p cs) = none) ∧
    (∀ (cs : List Char) (l : Nat), matchAt cs = some l →
      ∃ a b, (a = 2 ∨ a = 3) ∧ (b = 2 ∨ b = 3) ∧ l = a + 1 + b ∧
        (cs.take a).all isLowerAZ = true ∧ cs.getD a ' ' = '-' ∧
        b ≤ (cs.drop (a + 1)).length ∧
        ((cs.drop (a + 1)).take b).all isLowerAZ = true) ∧
    findDirection "well-known words" = some ("ell-kno", "wn words") ∧
    parseInput "well-known words" = some ("ell-kno", "wn words", true) := by
  refine ⟨?_, ?_, by decide, by decide⟩
  · intro cs
    induction cs with
    | nil =>
      intro s l h
      simp [findMatch] at h
    | cons c rest ih =>
      intro s l h
      rw [findMatch] at h
      cases hm : matchAt (c :: rest) with
      | some l0 =>
        rw [hm] at h
        simp only [Option.some_inj, Prod.mk.injEq] at h
        obtain ⟨hs, hl⟩ := h
        subst hs
        subst hl
        refine ⟨by simpa using hm, ?_⟩
        intro p hp
        omega
      | none =>
        rw [hm] at h
        cases hfm : findMatch rest with
        | none =>
          rw [hfm] at h
          simp at h
        | some q =>
          rw [hfm] at h
          simp only [Option.map_some', Option.some_inj, Prod.mk.injEq] at h
          obtain ⟨hs, hl⟩ := h
          subst hs
          subst hl
          have ihq := ih q.1 q.2 (by rw [hfm])
          constructor
          · simpa [List.drop_succ_cons] using ihq.1
          · intro p hp
            cases p with
            | zero => simpa using hm
            | succ p2 =>
              rw [List.drop_succ_cons]
              exact ihq.2 p2 (by omega)
  · intro cs l h
    unfold matchAt at h
    split at h
    · rename_i h33
      refine ⟨3, 3, Or.inr rfl, Or.inr rfl, by simp at h; omega, ?_⟩
      unfold matchSegAt at h33
      simp only [Bool.and_eq_true, beq_iff_eq, decide_eq_true_eq] at h33
      exact ⟨h33.1.1.1, h33.1.1.2, h33.1.2, h33.2⟩
    · split at h
      · rename_i h32
        refine ⟨3, 2, Or.inr rfl, Or.inl rfl, by simp at h; omega, ?_⟩
        unfold matchSegAt at h32
        simp only [Bool.and_eq_true, beq_iff_eq, decide_eq_true_eq] at h32
        exact ⟨h32.1.1.1, h32.1.1.2, h32.1.2, h32.2⟩
      · split at h
        · rename_i h23
          refine ⟨2, 3, Or.inl rfl, Or.inr rfl, by simp at h; omega, ?_⟩
          unfold matchSegAt at h23
          simp only [Bool.and_eq_true, beq_iff_eq, decide_eq_true_eq] at h23
          exact ⟨h23.1.1.1, h23.1.1.2, h23.1.2, h23.2⟩
        · split at h
          · rename_i h22
            refine ⟨2, 2, Or.inl rfl, Or.inl rfl, by simp at h; omega, ?_⟩
            unfold matchSegAt at h22
            simp only [Bool.and_eq_true, beq_iff_eq, decide_eq_true_eq] at h22
            exact ⟨h22.1.1.1, h22.1.1.2, h22.1.2, h22.2⟩
          · simp at h

/-- Witness for C10 evaluated at the concrete input beginning
`"well-known"`. -/
theorem c10_unanchored_leftmost_scan_witness :
    (matchAt (List.drop 1 "well-known words".data) = some 7 ∧
      ∀ p, p < 1 → matchAt (List.drop p "well-known words".data) = none) ∧
    (∃ a b, (a = 2 ∨ a = 3) ∧ (b = 2 ∨ b = 3) ∧ 7 = a + 1 + b ∧
      ((List.drop 1 "well-known words".data).take a).all isLowerAZ = true ∧
      (List.drop 1 "well-known words".data).getD a ' ' = '-' ∧
      b ≤ ((List.drop 1 "well-known words".data).drop (a + 1)).length ∧
      (((List.drop 1 "well-known words".data).drop (a + 1)).take b).all
        isLowerAZ = true) :=
  ⟨c10_unanchored_leftmost_scan.1 "well-known words".data 1 7 (by decide),
   c10_unanchored_leftmost_scan.2.1 (List.drop 1 "well-known words".data) 7
     (by decide)⟩

end TranslationBot
